import Mathlib

/-!
# Verification of the STL mesh-sculpting editor core

A shallow embedding of the deformation and mesh-editing engine of
`stlmuokkaus.py`: the falloff model, the brush kernels (`grab_deform`,
`inflate_deflate`, `local_smooth`), the numeric clamps, the undo/redo
history, the topology operations (`subdivide_mesh`, `decimate_mesh`) and
the per-tick sculpting step (`sculpt_step`).

Floating-point values are modelled as real numbers; numpy arrays of 3D
points as `List Vec3`.  External mesh-library calls (pyvista / VTK:
`subdivide`, `decimate_pro`, `compute_normals`, `point_normals`,
`extract_surface().triangulate().clean()`) are abstracted as an oracle
bundle `MeshOps M` over an abstract mesh type `M`; the editor code under
verification never inspects the mesh other than through these calls.
UI-only effects (status text, HUD, ruler line, rendering) are elided.
-/

namespace STLMuokkaus

/-- A 3D point/vector with real coordinates (models a numpy float64 triple). -/
@[ext]
structure Vec3 where
  x : ℝ
  y : ℝ
  z : ℝ

def Vec3.add (a b : Vec3) : Vec3 := ⟨a.x + b.x, a.y + b.y, a.z + b.z⟩

def Vec3.sub (a b : Vec3) : Vec3 := ⟨a.x - b.x, a.y - b.y, a.z - b.z⟩

/-- Scalar multiple `c * v` (numpy broadcasting `w * delta`). -/
def Vec3.smul (c : ℝ) (a : Vec3) : Vec3 := ⟨c * a.x, c * a.y, c * a.z⟩

def Vec3.dot (a b : Vec3) : ℝ := a.x * b.x + a.y * b.y + a.z * b.z

/-- Euclidean norm, `np.linalg.norm`. -/
noncomputable def Vec3.norm3 (a : Vec3) : ℝ := Real.sqrt (a.x ^ 2 + a.y ^ 2 + a.z ^ 2)

def Vec3.zero : Vec3 := ⟨0, 0, 0⟩

/-- `np.clip(v, lo, hi)` for scalars: lower bound applied first, then upper. -/
noncomputable def npClip (v lo hi : ℝ) : ℝ := min (max v lo) hi

/-- `gaussian_falloff` of the source, elementwise: the code computes
`w = exp(-(r*r)/(2*sigma*sigma))` for every entry and then zeroes the
entries with `r > radius` (the clamped radius). -/
noncomputable def gaussian_falloff (r radius : ℝ) : ℝ :=
  let radius' := max radius 1e-9
  let sigma := radius' / 3.0
  if r > radius' then 0 else Real.exp (-(r * r) / (2.0 * sigma * sigma))

/-- `safe_unit_axis` of the source; the mode strings "X"/"Y"/"Z"/other are
modelled by an inductive type. -/
inductive AxisMode where
  | VAPAA | X | Y | Z
deriving DecidableEq

def safe_unit_axis : AxisMode → Option Vec3
  | .X => some ⟨1.0, 0.0, 0.0⟩
  | .Y => some ⟨0.0, 1.0, 0.0⟩
  | .Z => some ⟨0.0, 0.0, 1.0⟩
  | _ => none

/-- `grab_deform` of the source:
`points + (w[:,None] * delta[None,:])` with
`w = gaussian_falloff(norm(points - anchor), radius) * strength`. -/
noncomputable def grab_deform (points : List Vec3) (anchor delta : Vec3)
    (radius strength : ℝ) : List Vec3 :=
  points.map fun p =>
    let r := (p.sub anchor).norm3
    let w := gaussian_falloff r radius * strength
    p.add (Vec3.smul w delta)

/-- `inflate_deflate` of the source: `points + normals * w[:,None]`,
index-aligned normals modelled by `zip`. -/
noncomputable def inflate_deflate (points : List Vec3) (anchor : Vec3)
    (normals : List Vec3) (radius amount : ℝ) : List Vec3 :=
  (points.zip normals).map fun pn =>
    let r := (pn.1.sub anchor).norm3
    let w := gaussian_falloff r radius * amount
    pn.1.add (Vec3.smul w pn.2)

/-- `local_smooth` of the source.  The loop body at index `vi` only reads
`pts[vi]` and the whole buffer, so the indexed loop over `idxs` is a `map`
whose function takes the vertex value; vertices outside the brush radius
keep their entry of `out = pts.copy()` untouched. -/
noncomputable def local_smooth (points : List Vec3) (anchor : Vec3)
    (radius strength drag_len : ℝ) : List Vec3 :=
  let inBrush := points.filter fun p => decide ((p.sub anchor).norm3 ≤ radius)
  if inBrush.length = 0 then points
  else
    let nb_r := max (radius * 0.40) 0.8
    let amt := npClip (strength * drag_len * 6.0) 0.0 0.65
    points.map fun p =>
      if (p.sub anchor).norm3 ≤ radius then
        let nb := points.filter fun q => decide ((q.sub p).norm3 ≤ nb_r)
        if nb.length < 8 then p
        else
          let avg := Vec3.smul (1 / (nb.length : ℝ)) (nb.foldl Vec3.add Vec3.zero)
          (Vec3.smul (1 - amt) p).add (Vec3.smul amt avg)
      else p

/-- `STLEditor._clamp_vec`. -/
noncomputable def clamp_vec (v : Vec3) (max_len : ℝ) : Vec3 :=
  let n := v.norm3
  if n ≤ max_len ∨ n < 1e-12 then v
  else Vec3.smul (max_len / n) v

/-- The brush selector strings "TARTU" (grab), "PULLISTA" (inflate),
"PAINA" (deflate), "SILOTA" (smooth). -/
inductive Brush where
  | TARTU | PULLISTA | PAINA | SILOTA
deriving DecidableEq

/-- A vertex-position buffer: one 3D point per mesh vertex. -/
abbrev Buf := List Vec3

/-- Oracle bundle for the external pyvista/VTK mesh calls the editor makes
on an abstract mesh type `M`.  `subdivide_loop`/`subdivide_plain`/
`decimate_pro` return `none` when the library call raises. -/
structure MeshOps (M : Type) where
  points_of : M → Buf
  point_normals : M → Option Buf
  with_points : M → Buf → M
  compute_normals : M → M
  subdivide_loop : M → ℕ → Option M
  subdivide_plain : M → ℕ → Option M
  decimate_pro : M → ℝ → Option M
  extract_clean : M → M

/-- `self.stack_max = 30`. -/
def stack_max : ℕ := 30

/-- `self._sculpt_min_dt_ms = 16`. -/
def sculpt_min_dt_ms : ℕ := 16

/-- `self._normals_min_dt_ms = 80`. -/
def normals_min_dt_ms : ℕ := 80

/-- The mutable fields of `STLEditor` that the deformation/history engine
reads and writes.  The two `QElapsedTimer`s are modelled by the absolute
time (ms) of their last restart (`sculptLast`, `normalsLast`); the current
time arrives with every tick.  In the source `self.points is None` exactly
when `self.mesh is None` (both are set together by `load_stl` and never
cleared separately), so the `points is None` guards are modelled by
`mesh = none`. -/
structure EditorState (M : Type) where
  mesh : Option M
  points : Buf
  anchor : Option Vec3
  brush : Brush
  axis : Option Vec3
  radius : ℝ
  strength : ℝ
  smooth_amount : ℝ
  last_pick : Option Vec3
  sculpt_total : ℝ
  axis_total_signed : ℝ
  cached_normals : Option Buf
  max_step_world : ℝ
  max_amount_world : ℝ
  undo : List Buf
  redo : List Buf
  sculptLast : ℕ
  normalsLast : ℕ

variable {M : Type}

/-- `STLEditor._set_points`: installs the buffer, writes it into the mesh,
recomputes the mesh normals in place and refreshes `_cached_normals`
(rendering elided).  The source always calls it with a mesh present; the
`none` arm is the vacuous fallback. -/
def set_points (ops : MeshOps M) (s : EditorState M) (pts : Buf) : EditorState M :=
  match s.mesh with
  | some m =>
      let m' := ops.compute_normals (ops.with_points m pts)
      { s with points := pts, mesh := some m', cached_normals := ops.point_normals m' }
  | none => { s with points := pts }

/-- `STLEditor.push_undo`: snapshot the buffer, evict the oldest entry on
overflow (`pop(0)`), clear redo. -/
def push_undo (s : EditorState M) : EditorState M :=
  if s.mesh.isSome then
    let u := s.undo ++ [s.points]
    { s with undo := if stack_max < u.length then u.drop 1 else u, redo := [] }
  else s

/-- `STLEditor.do_undo`: no-op when no mesh or the undo stack is empty;
else push the current buffer onto redo, pop the latest undo snapshot and
install it via `_set_points`. -/
def do_undo (ops : MeshOps M) (s : EditorState M) : EditorState M :=
  match s.mesh, s.undo.getLast? with
  | some _, some pts =>
      set_points ops { s with redo := s.redo ++ [s.points], undo := s.undo.dropLast } pts
  | _, _ => s

/-- `STLEditor.do_redo`: the mirror of `do_undo` (note: it appends to the
undo stack without the capacity check). -/
def do_redo (ops : MeshOps M) (s : EditorState M) : EditorState M :=
  match s.mesh, s.redo.getLast? with
  | some _, some pts =>
      set_points ops { s with undo := s.undo ++ [s.points], redo := s.redo.dropLast } pts
  | _, _ => s

/-- `STLEditor._post_mesh_op_fixup`: re-clean and re-triangulate the mesh,
recompute its normals, adopt its points as the buffer and refresh
`_cached_normals` (redraw elided). -/
def post_mesh_op_fixup (ops : MeshOps M) (s : EditorState M) : EditorState M :=
  match s.mesh with
  | some m =>
      let m' := ops.compute_normals (ops.extract_clean m)
      { s with mesh := some m', points := ops.points_of m',
               cached_normals := ops.point_normals m' }
  | none => s

/-- `STLEditor.subdivide_mesh`: push undo, try loop subdivision, fall back
to plain subdivision, and on failure of both roll back via `do_undo`
(the error dialog is elided). -/
def subdivide_mesh (ops : MeshOps M) (it : ℕ) (s : EditorState M) : EditorState M :=
  match s.mesh with
  | none => s
  | some m =>
      let s1 := push_undo s
      match ops.subdivide_loop m it with
      | some m' => post_mesh_op_fixup ops { s1 with mesh := some m' }
      | none =>
          match ops.subdivide_plain m it with
          | some m' => post_mesh_op_fixup ops { s1 with mesh := some m' }
          | none => do_undo ops s1

/-- `STLEditor.decimate_mesh`: push undo, decimate with
`target_reduction = pct / 100`, roll back via `do_undo` on failure. -/
noncomputable def decimate_mesh (ops : MeshOps M) (pct : ℕ) (s : EditorState M) :
    EditorState M :=
  match s.mesh with
  | none => s
  | some m =>
      let target_reduction : ℝ := (pct : ℝ) / 100.0
      let s1 := push_undo s
      match ops.decimate_pro m target_reduction with
      | some m' => post_mesh_op_fixup ops { s1 with mesh := some m' }
      | none => do_undo ops s1

/-- Per-tick input: the current clock reading (ms) and the world-space
pick result for the current pointer position (`none` = pick miss). -/
structure TickIn where
  now : ℕ
  pick : Option Vec3

/-- `STLEditor.sculpt_step`: the per-tick sculpting dispatch (HUD and
ruler updates elided).  Mirrors the source order: rate gate and timer
restart, pick, two-point delta with `_clamp_vec`, noise floor, then the
axis-constrained Grab branch, the free Grab branch, the normals staleness
refresh, and the Inflate/Deflate and Smooth branches. -/
noncomputable def sculpt_step (ops : MeshOps M) (tick : TickIn) (s : EditorState M) :
    EditorState M :=
  match s.mesh, s.anchor with
  | some m, some anchor =>
      if tick.now - s.sculptLast < sculpt_min_dt_ms then s
      else
        let s0 := { s with sculptLast := tick.now }
        match tick.pick with
        | none => s0
        | some p =>
            match s.last_pick with
            | none => { s0 with last_pick := some p }
            | some lp =>
                let delta_raw := clamp_vec (p.sub lp) s.max_step_world
                let s1 := { s0 with last_pick := some p }
                if delta_raw.norm3 < 1e-10 then s1
                else
                  match s.brush, s.axis with
                  | .TARTU, some ax =>
                      let max_grab := min s.max_step_world (max 0.25 (0.15 * s.radius))
                      let signed_step := npClip (delta_raw.dot ax) (-max_grab) max_grab
                      let delta := Vec3.smul signed_step ax
                      let s2 := { s1 with
                        axis_total_signed := s1.axis_total_signed + signed_step,
                        sculpt_total := s1.sculpt_total + |signed_step| }
                      let eff := npClip s.strength 0.0 2.5
                      set_points ops s2 (grab_deform s.points anchor delta s.radius eff)
                  | .TARTU, none =>
                      let delta :=
                        clamp_vec delta_raw (min s.max_step_world (max 0.25 (0.15 * s.radius)))
                      let eff := npClip s.strength 0.0 2.5
                      let s2 := { s1 with sculpt_total := s1.sculpt_total + delta.norm3 }
                      set_points ops s2 (grab_deform s.points anchor delta s.radius eff)
                  | _, _ =>
                      let s2 :=
                        if s1.cached_normals.isNone
                            ∨ normals_min_dt_ms < tick.now - s.normalsLast then
                          let m' := ops.compute_normals m
                          { s1 with mesh := some m',
                                    cached_normals := ops.point_normals m',
                                    normalsLast := tick.now }
                        else s1
                      match s2.cached_normals with
                      | none => s2
                      | some normals =>
                          let drag := delta_raw.norm3
                          match s.brush with
                          | .PULLISTA | .PAINA =>
                              let sign : ℝ := if s.brush = .PULLISTA then 1.0 else -1.0
                              let eff := npClip s.strength 0.0 2.5
                              let max_amt :=
                                min s.max_amount_world (max 0.20 (0.12 * s.radius))
                              let amount :=
                                npClip (sign * eff * drag * 2.0) (-max_amt) max_amt
                              set_points ops s2
                                (inflate_deflate s.points anchor normals s.radius amount)
                          | .SILOTA =>
                              let eff := npClip s.strength 0.0 2.5 * max s.smooth_amount 0.05
                              set_points ops s2
                                (local_smooth s.points anchor s.radius eff drag)
                          | .TARTU => s2
  | _, _ => s

/-- One buffer-mutating edit gesture as the spec's history scenarios use
it: `push_undo` followed by installing the mutated buffer via
`_set_points` (a drag session pushes once in `_start_sculpting` and then
writes via `_set_points`; each topology operation pushes once and then
replaces the buffer). -/
def apply_edit (ops : MeshOps M) (f : Buf → Buf) (s : EditorState M) : EditorState M :=
  set_points ops (push_undo s) (f s.points)

/-- A sequence of buffer-mutating edits, each preceded by `push_undo`. -/
def run_edits (ops : MeshOps M) (fs : List (Buf → Buf)) (s : EditorState M) :
    EditorState M :=
  fs.foldl (fun t f => apply_edit ops f t) s

/-- The buffer obtained by running the edit functions in order. -/
def chain (fs : List (Buf → Buf)) (p : Buf) : Buf :=
  fs.foldl (fun x f => f x) p

/-- The pre-edit snapshots pushed onto the undo stack by `run_edits`,
oldest first. -/
def snaps : List (Buf → Buf) → Buf → List Buf
  | [], _ => []
  | f :: rest, p => p :: snaps rest (f p)

/-- The snapshots that a run of `u2.length` consecutive `do_undo` calls
pushes onto the redo stack (in push order) when the undo stack ends with
`u2` and the current buffer is `p`. -/
def rollback_trace : List Buf → Buf → List Buf
  | [], _ => []
  | _ :: t, p => p :: t.reverse

/-- A sequence of bare `push_undo` calls, the buffer being set to the
given value before each push (so that the pushed snapshots can be told
apart). -/
def push_seq (bs : List Buf) (s : EditorState M) : EditorState M :=
  bs.foldl (fun t b => push_undo { t with points := b }) s

/-- A concrete mesh-oracle instance on the trivial mesh type, used to run
the editor operations on explicit inputs: both subdivision calls raise,
decimation succeeds, and the mesh always reports an empty vertex list and
one unit normal. -/
def demoOps : MeshOps Unit where
  points_of _ := []
  point_normals _ := some [⟨0.0, 0.0, 1.0⟩]
  with_points m _ := m
  compute_normals m := m
  subdivide_loop _ _ := none
  subdivide_plain _ _ := none
  decimate_pro _ _ := some ()
  extract_clean m := m

/-- A concrete editor state over the trivial mesh type, used to run the
editor operations on explicit inputs. -/
def demoState : EditorState Unit where
  mesh := some ()
  points := [⟨1.0, 2.0, 3.0⟩]
  anchor := some ⟨0.0, 0.0, 0.0⟩
  brush := Brush.TARTU
  axis := none
  radius := 1.0
  strength := 1.0
  smooth_amount := 0.50
  last_pick := none
  sculpt_total := 0.0
  axis_total_signed := 0.0
  cached_normals := none
  max_step_world := 2.0
  max_amount_world := 2.0
  undo := []
  redo := []
  sculptLast := 0
  normalsLast := 0

/-- A demo tick: clock at 100 ms, pick hit at `(0,0,1)`. -/
def demoTick : TickIn := ⟨100, some ⟨0.0, 0.0, 1.0⟩⟩

/-- The demo state mid-drag: a previous pick at the origin. -/
def demoDrag : EditorState Unit := { demoState with last_pick := some ⟨0.0, 0.0, 0.0⟩ }

/-- The demo state mid-drag with the Z axis constraint active
(`safe_unit_axis "Z"`). -/
def demoDragZ : EditorState Unit :=
  { demoState with last_pick := some ⟨0.0, 0.0, 0.0⟩, axis := some ⟨0.0, 0.0, 1.0⟩ }

/-- The demo state mid-drag with the Smooth brush selected (the normal
cache is empty, as after loading). -/
def demoDragSmooth : EditorState Unit :=
  { demoState with last_pick := some ⟨0.0, 0.0, 0.0⟩, brush := Brush.SILOTA }

/-- The per-tick Grab step bound of `sculpt_step`:
`min(self._max_step_world, max(0.25, 0.15 * self.radius))`. -/
noncomputable def max_grab (s : EditorState M) : ℝ :=
  min s.max_step_world (max 0.25 (0.15 * s.radius))

/-- The clamped signed axis step of an axis-constrained Grab tick:
`np.clip(delta_raw @ axis, -max_grab, +max_grab)` with
`delta_raw = _clamp_vec(p - last_pick, _max_step_world)`. -/
noncomputable def axis_signed_step (s : EditorState M) (p lp ax : Vec3) : ℝ :=
  npClip ((clamp_vec (p.sub lp) s.max_step_world).dot ax) (-max_grab s) (max_grab s)

/-! ## Basic vector and falloff lemmas -/

lemma Vec3.norm3_nonneg (v : Vec3) : 0 ≤ v.norm3 := Real.sqrt_nonneg _

lemma Vec3.norm3_smul (c : ℝ) (v : Vec3) : (Vec3.smul c v).norm3 = |c| * v.norm3 := by
  unfold Vec3.norm3 Vec3.smul
  have h : (c * v.x) ^ 2 + (c * v.y) ^ 2 + (c * v.z) ^ 2
      = c ^ 2 * (v.x ^ 2 + v.y ^ 2 + v.z ^ 2) := by ring
  rw [h, Real.sqrt_mul (by positivity), Real.sqrt_sq_eq_abs]

lemma Vec3.add_sub_cancel3 (a b : Vec3) : (a.add b).sub a = b := by
  ext <;> simp [Vec3.add, Vec3.sub]

lemma Vec3.smul_assoc3 (a b : ℝ) (v : Vec3) :
    Vec3.smul a (Vec3.smul b v) = Vec3.smul (a * b) v := by
  ext <;> simp [Vec3.smul] <;> ring

lemma Vec3.smul_dot (c : ℝ) (v u : Vec3) :
    (Vec3.smul c v).dot u = c * v.dot u := by
  simp [Vec3.smul, Vec3.dot]; ring

lemma gaussian_falloff_eq (r radius : ℝ) :
    gaussian_falloff r radius =
      if max radius 1e-9 < r then 0
      else Real.exp (-(r * r) /
        (2.0 * (max radius 1e-9 / 3.0) * (max radius 1e-9 / 3.0))) := rfl

lemma gaussian_falloff_nonneg (r radius : ℝ) : 0 ≤ gaussian_falloff r radius := by
  rw [gaussian_falloff_eq]
  split
  · exact le_refl 0
  · exact (Real.exp_pos _).le

lemma gaussian_falloff_le_one (r radius : ℝ) : gaussian_falloff r radius ≤ 1 := by
  rw [gaussian_falloff_eq]
  split
  · exact zero_le_one
  · calc Real.exp (-(r * r) /
        (2.0 * (max radius 1e-9 / 3.0) * (max radius 1e-9 / 3.0)))
        ≤ Real.exp 0 := by
          apply Real.exp_le_exp.mpr
          apply div_nonpos_of_nonpos_of_nonneg
          · simpa using mul_self_nonneg r
          · have hradius : (0:ℝ) < max radius 1e-9 :=
              lt_of_lt_of_le (by norm_num) (le_max_right _ _)
            positivity
      _ = 1 := Real.exp_zero

lemma gaussian_falloff_at_zero (radius : ℝ) : gaussian_falloff 0 radius = 1 := by
  rw [gaussian_falloff_eq]
  have hradius : (0:ℝ) < max radius 1e-9 :=
    lt_of_lt_of_le (by norm_num) (le_max_right _ _)
  rw [if_neg (by simpa using hradius.not_lt)]
  norm_num

/-- **C6.** For every radius and every non-negative distance `d`, with
`R = max radius 1e-9` the clamped radius: the falloff is `0` whenever
`d > R`, is `1` at `d = 0`, equals the Gaussian
`exp(-d^2 / (2 sigma^2))` with `sigma = R / 3` whenever `d ≤ R`, and
always lies in `[0, 1]`. -/
theorem falloff_contract (radius d : ℝ) (hd : 0 ≤ d) :
    (max radius 1e-9 < d → gaussian_falloff d radius = 0) ∧
    gaussian_falloff 0 radius = 1 ∧
    (d ≤ max radius 1e-9 →
      gaussian_falloff d radius =
        Real.exp (-(d * d) /
          (2.0 * (max radius 1e-9 / 3.0) * (max radius 1e-9 / 3.0)))) ∧
    0 ≤ gaussian_falloff d radius ∧ gaussian_falloff d radius ≤ 1 := by
  refine ⟨fun h => ?_, gaussian_falloff_at_zero radius, fun h => ?_,
    gaussian_falloff_nonneg d radius, gaussian_falloff_le_one d radius⟩
  · rw [gaussian_falloff_eq, if_pos h]
  · rw [gaussian_falloff_eq, if_neg h.not_lt]

/-- Closed witness for `falloff_contract` at `radius = 1`, `d = 2`. -/
theorem falloff_contract_witness :
    (0:ℝ) ≤ 2 ∧
    ((max (1:ℝ) 1e-9 < 2 → gaussian_falloff 2 1 = 0) ∧
      gaussian_falloff 0 1 = 1 ∧
      ((2:ℝ) ≤ max (1:ℝ) 1e-9 →
        gaussian_falloff 2 1 =
          Real.exp (-(2 * 2) /
            (2.0 * (max (1:ℝ) 1e-9 / 3.0) * (max (1:ℝ) 1e-9 / 3.0)))) ∧
      0 ≤ gaussian_falloff 2 1 ∧ gaussian_falloff 2 1 ≤ 1) :=
  ⟨by norm_num, falloff_contract 1 2 (by norm_num)⟩

/-! ## The four-vertex Grab scenario (C3) -/

lemma norm3_simple (a b c : ℝ) : (Vec3.mk a b c).norm3 = Real.sqrt (a^2 + b^2 + c^2) := rfl

lemma gaussian_falloff_one_one : gaussian_falloff 1 1 = Real.exp (-(9/2) : ℝ) := by
  rw [gaussian_falloff_eq]
  have hmax : max (1:ℝ) 1e-9 = 1 := max_eq_left (by norm_num)
  rw [hmax, if_neg (by norm_num)]
  norm_num

/-- **C3 (amended).** In the scenario with vertices
`(0,0,0),(1,0,0),(0,1,0),(0,0,1)`, anchor `(0,0,0)`, Grab delta `(0,0,1)`,
radius `1`, strength `1`: vertex 0 moves by exactly `(0,0,1)` (weight 1 at
distance 0), while each vertex at distance exactly the radius gets the
small but nonzero weight `exp(-9/2)` (the hard cutoff applies only to
distances strictly greater than the radius) and moves by `exp(-9/2)`
along `z`. -/
theorem grab_scenario_exact :
    grab_deform [⟨0, 0, 0⟩, ⟨1, 0, 0⟩, ⟨0, 1, 0⟩, ⟨0, 0, 1⟩]
        ⟨0, 0, 0⟩ ⟨0, 0, 1⟩ 1 1
      = [⟨0, 0, 1⟩, ⟨1, 0, Real.exp (-(9/2) : ℝ)⟩, ⟨0, 1, Real.exp (-(9/2) : ℝ)⟩,
         ⟨0, 0, 1 + Real.exp (-(9/2) : ℝ)⟩]
    ∧ Real.exp (-(9/2) : ℝ) ≠ 0 := by
  constructor
  · unfold grab_deform
    have h0 : (Vec3.mk (0:ℝ) 0 0).norm3 = 0 := by
      rw [norm3_simple]; simp
    have h1 : (Vec3.mk (1:ℝ) 0 0).norm3 = 1 := by
      rw [norm3_simple]; norm_num
    have h2 : (Vec3.mk (0:ℝ) 1 0).norm3 = 1 := by
      rw [norm3_simple]; norm_num
    have h3 : (Vec3.mk (0:ℝ) 0 1).norm3 = 1 := by
      rw [norm3_simple]; norm_num
    simp only [List.map, Vec3.sub, Vec3.add, Vec3.smul]
    norm_num [h0, h1, h2, h3, gaussian_falloff_at_zero, gaussian_falloff_one_one]
  · exact Real.exp_ne_zero _

/-- The claim as stated is false: the vertex at `(1,0,0)` — at distance
exactly the radius — is not left unchanged by the Grab. -/
theorem grab_scenario_cutoff_counterexample :
    (grab_deform [⟨0, 0, 0⟩, ⟨1, 0, 0⟩, ⟨0, 1, 0⟩, ⟨0, 0, 1⟩]
        ⟨0, 0, 0⟩ ⟨0, 0, 1⟩ 1 1).getD 1 Vec3.zero ≠ ⟨1, 0, 0⟩ := by
  unfold grab_deform
  have h1 : (Vec3.mk (1:ℝ) 0 0).norm3 = 1 := by
    rw [norm3_simple]; norm_num
  simp only [List.map, Vec3.sub, Vec3.add, Vec3.smul, List.getD]
  norm_num [h1, gaussian_falloff_one_one, Vec3.mk.injEq]

/-! ## Smooth brush skip conditions (C10) -/

/-- **C10.** The Smooth brush leaves every vertex whose neighbourhood
within the secondary radius `max(0.40 * radius, 0.8)` has fewer than 8
members unchanged, and it also leaves every vertex farther than the brush
radius from the anchor unchanged. -/
theorem smooth_skips_sparse_and_far (points : Buf) (anchor : Vec3)
    (radius strength drag_len : ℝ) (i : ℕ) (hi : i < points.length) :
    (local_smooth points anchor radius strength drag_len).length = points.length ∧
    ((points.filter fun q =>
        decide ((q.sub (points.getD i Vec3.zero)).norm3 ≤ max (radius * 0.40) 0.8)).length
          < 8 →
      (local_smooth points anchor radius strength drag_len).getD i Vec3.zero
        = points.getD i Vec3.zero) ∧
    (radius < ((points.getD i Vec3.zero).sub anchor).norm3 →
      (local_smooth points anchor radius strength drag_len).getD i Vec3.zero
        = points.getD i Vec3.zero) := by
  unfold local_smooth
  by_cases hempty :
      (points.filter fun p => decide ((p.sub anchor).norm3 ≤ radius)).length = 0
  · simp [hempty]
  · simp only [if_neg hempty]
    have hlen : (points.map fun p =>
        if (p.sub anchor).norm3 ≤ radius then
          let nb := points.filter fun q =>
            decide ((q.sub p).norm3 ≤ max (radius * 0.40) 0.8)
          if nb.length < 8 then p
          else
            let avg := Vec3.smul (1 / (nb.length : ℝ)) (nb.foldl Vec3.add Vec3.zero)
            (Vec3.smul (1 - npClip (strength * drag_len * 6.0) 0.0 0.65) p).add
              (Vec3.smul (npClip (strength * drag_len * 6.0) 0.0 0.65) avg)
        else p).length = points.length := List.length_map _ _
    refine ⟨hlen, ?_, ?_⟩
    · intro hsparse
      rw [List.getD_eq_getElem _ _ hi] at hsparse ⊢
      rw [List.getD_eq_getElem _ _ (by rw [hlen]; exact hi), List.getElem_map]
      by_cases hin : (points[i].sub anchor).norm3 ≤ radius
      · rw [if_pos hin]
        simp only [if_pos hsparse]
      · rw [if_neg hin]
    · intro hfar
      rw [List.getD_eq_getElem _ _ hi] at hfar ⊢
      rw [List.getD_eq_getElem _ _ (by rw [hlen]; exact hi), List.getElem_map]
      rw [if_neg (not_le.mpr hfar)]

/-- Closed witness for `smooth_skips_sparse_and_far`: two vertices, the
far one (distance 100, radius 1) with a sparse neighbourhood. -/
theorem smooth_skips_witness :
    1 < ([⟨0, 0, 0⟩, ⟨100, 0, 0⟩] : Buf).length ∧
    ((local_smooth [⟨0, 0, 0⟩, ⟨100, 0, 0⟩] ⟨0, 0, 0⟩ 1 1 1).length
        = ([⟨0, 0, 0⟩, ⟨100, 0, 0⟩] : Buf).length ∧
      ((([⟨0, 0, 0⟩, ⟨100, 0, 0⟩] : Buf).filter fun q =>
          decide ((q.sub (([⟨0, 0, 0⟩, ⟨100, 0, 0⟩] : Buf).getD 1 Vec3.zero)).norm3
            ≤ max (1 * 0.40) 0.8)).length < 8 →
        (local_smooth [⟨0, 0, 0⟩, ⟨100, 0, 0⟩] ⟨0, 0, 0⟩ 1 1 1).getD 1 Vec3.zero
          = ([⟨0, 0, 0⟩, ⟨100, 0, 0⟩] : Buf).getD 1 Vec3.zero) ∧
      ((1:ℝ) < ((([⟨0, 0, 0⟩, ⟨100, 0, 0⟩] : Buf).getD 1 Vec3.zero).sub ⟨0, 0, 0⟩).norm3 →
        (local_smooth [⟨0, 0, 0⟩, ⟨100, 0, 0⟩] ⟨0, 0, 0⟩ 1 1 1).getD 1 Vec3.zero
          = ([⟨0, 0, 0⟩, ⟨100, 0, 0⟩] : Buf).getD 1 Vec3.zero)) :=
  ⟨by norm_num, smooth_skips_sparse_and_far [⟨0, 0, 0⟩, ⟨100, 0, 0⟩] ⟨0, 0, 0⟩ 1 1 1 1
    (by norm_num)⟩

/-! ## History lemmas: popping and pushing snapshots -/

lemma headD_concat {α : Type} (ys : List α) (x d : α) :
    (ys ++ [x]).headD d = ys.headD x := by
  cases ys <;> simp

lemma rollback_trace_concat (ys : List Buf) (x p : Buf) :
    rollback_trace (ys ++ [x]) p = p :: rollback_trace ys x := by
  cases ys <;> simp [rollback_trace, List.reverse_append]

lemma rollback_trace_length (u : List Buf) (p : Buf) :
    (rollback_trace u p).length = u.length := by
  cases u <;> simp [rollback_trace]

lemma set_points_some (ops : MeshOps M) (s : EditorState M) (m : M) (pts : Buf)
    (hm : s.mesh = some m) :
    set_points ops s pts =
      { s with points := pts,
               mesh := some (ops.compute_normals (ops.with_points m pts)),
               cached_normals :=
                 ops.point_normals (ops.compute_normals (ops.with_points m pts)) } := by
  unfold set_points
  rw [hm]

lemma do_undo_of_undo_nil (ops : MeshOps M) (s : EditorState M) (h : s.undo = []) :
    do_undo ops s = s := by
  unfold do_undo
  rw [h]
  cases s.mesh <;> rfl

lemma do_redo_of_redo_nil (ops : MeshOps M) (s : EditorState M) (h : s.redo = []) :
    do_redo ops s = s := by
  unfold do_redo
  rw [h]
  cases s.mesh <;> rfl

lemma do_undo_eq_pop (ops : MeshOps M) (s : EditorState M) (m : M) (u : List Buf) (x : Buf)
    (hm : s.mesh = some m) (hu : s.undo = u ++ [x]) :
    do_undo ops s =
      set_points ops { s with redo := s.redo ++ [s.points], undo := u } x := by
  unfold do_undo
  rw [hm, hu, List.getLast?_concat, List.dropLast_concat]

lemma do_redo_eq_pop (ops : MeshOps M) (s : EditorState M) (m : M) (r : List Buf) (x : Buf)
    (hm : s.mesh = some m) (hr : s.redo = r ++ [x]) :
    do_redo ops s =
      set_points ops { s with undo := s.undo ++ [s.points], redo := r } x := by
  unfold do_redo
  rw [hm, hr, List.getLast?_concat, List.dropLast_concat]

/-- Running `do_undo` once for every element of the stack suffix `u2`
installs the oldest snapshot of `u2`, leaves the prefix `u1` on the undo
stack, and pushes the popped-over buffers onto redo in order. -/
lemma do_undo_iter (ops : MeshOps M) (u2 : List Buf) :
    ∀ (s : EditorState M) (u1 : List Buf), s.mesh.isSome → s.undo = u1 ++ u2 →
      ((do_undo ops)^[u2.length] s).points = u2.headD s.points ∧
      ((do_undo ops)^[u2.length] s).undo = u1 ∧
      ((do_undo ops)^[u2.length] s).redo = s.redo ++ rollback_trace u2 s.points ∧
      ((do_undo ops)^[u2.length] s).mesh.isSome := by
  induction u2 using List.reverseRecOn with
  | nil =>
      intro s u1 hm hu
      refine ⟨by simp, by simpa using hu, by simp [rollback_trace], by simpa using hm⟩
  | append_singleton ys x ih =>
      intro s u1 hm hu
      obtain ⟨m, hm'⟩ := Option.isSome_iff_exists.mp hm
      have hlen : (ys ++ [x]).length = ys.length + 1 := by simp
      have hu' : s.undo = (u1 ++ ys) ++ [x] := by rw [hu, List.append_assoc]
      have hstep := do_undo_eq_pop ops s m (u1 ++ ys) x hm' hu'
      set s' : EditorState M :=
        { s with redo := s.redo ++ [s.points], undo := u1 ++ ys } with hs'
      have hmesh' : s'.mesh = some m := hm'
      have ht : do_undo ops s =
          { s' with points := x,
                    mesh := some (ops.compute_normals (ops.with_points m x)),
                    cached_normals :=
                      ops.point_normals (ops.compute_normals (ops.with_points m x)) } := by
        rw [hstep, set_points_some ops s' m x hmesh']
      set t : EditorState M :=
        { s' with points := x,
                  mesh := some (ops.compute_normals (ops.with_points m x)),
                  cached_normals :=
                    ops.point_normals (ops.compute_normals (ops.with_points m x)) } with hts
      have hiter : (do_undo ops)^[(ys ++ [x]).length] s = (do_undo ops)^[ys.length] t := by
        rw [hlen, Function.iterate_succ_apply, ht]
      have ihres := ih t u1 (by simp [hts]) (by simp [hts, hs'])
      rw [hiter]
      refine ⟨?_, ihres.2.1, ?_, ihres.2.2.2⟩
      · rw [ihres.1]
        simp only [hts]
        exact (headD_concat ys x s.points).symm
      · rw [ihres.2.2.1]
        simp only [hts, hs']
        rw [rollback_trace_concat, List.append_assoc]
        rfl

/-- Mirror of `do_undo_iter` for `do_redo`. -/
lemma do_redo_iter (ops : MeshOps M) (r2 : List Buf) :
    ∀ (s : EditorState M) (r1 : List Buf), s.mesh.isSome → s.redo = r1 ++ r2 →
      ((do_redo ops)^[r2.length] s).points = r2.headD s.points ∧
      ((do_redo ops)^[r2.length] s).redo = r1 ∧
      ((do_redo ops)^[r2.length] s).undo = s.undo ++ rollback_trace r2 s.points ∧
      ((do_redo ops)^[r2.length] s).mesh.isSome := by
  induction r2 using List.reverseRecOn with
  | nil =>
      intro s r1 hm hr
      refine ⟨by simp, by simpa using hr, by simp [rollback_trace], by simpa using hm⟩
  | append_singleton ys x ih =>
      intro s r1 hm hr
      obtain ⟨m, hm'⟩ := Option.isSome_iff_exists.mp hm
      have hlen : (ys ++ [x]).length = ys.length + 1 := by simp
      have hr' : s.redo = (r1 ++ ys) ++ [x] := by rw [hr, List.append_assoc]
      have hstep := do_redo_eq_pop ops s m (r1 ++ ys) x hm' hr'
      set s' : EditorState M :=
        { s with undo := s.undo ++ [s.points], redo := r1 ++ ys } with hs'
      have hmesh' : s'.mesh = some m := hm'
      have ht : do_redo ops s =
          { s' with points := x,
                    mesh := some (ops.compute_normals (ops.with_points m x)),
                    cached_normals :=
                      ops.point_normals (ops.compute_normals (ops.with_points m x)) } := by
        rw [hstep, set_points_some ops s' m x hmesh']
      set t : EditorState M :=
        { s' with points := x,
                  mesh := some (ops.compute_normals (ops.with_points m x)),
                  cached_normals :=
                    ops.point_normals (ops.compute_normals (ops.with_points m x)) } with hts
      have hiter : (do_redo ops)^[(ys ++ [x]).length] s = (do_redo ops)^[ys.length] t := by
        rw [hlen, Function.iterate_succ_apply, ht]
      have ihres := ih t r1 (by simp [hts]) (by simp [hts, hs'])
      rw [hiter]
      refine ⟨?_, ihres.2.1, ?_, ihres.2.2.2⟩
      · rw [ihres.1]
        simp only [hts]
        exact (headD_concat ys x s.points).symm
      · rw [ihres.2.2.1]
        simp only [hts, hs']
        rw [rollback_trace_concat, List.append_assoc]
        rfl

lemma head?_drop' {α : Type} (l : List α) (n : ℕ) : (l.drop n).head? = l[n]? := by
  induction l generalizing n with
  | nil => simp
  | cons a t ih => cases n <;> simp [ih]

/-- When the mesh is loaded and the undo stack is within capacity,
`push_undo` appends the snapshot, evicting the oldest entry exactly when
the capacity is exceeded, and clears redo. -/
lemma push_undo_eq (s : EditorState M) (h : s.mesh.isSome)
    (hcap : s.undo.length ≤ stack_max) :
    push_undo s =
      { s with undo := (s.undo ++ [s.points]).drop ((s.undo.length + 1) - stack_max),
               redo := [] } := by
  unfold push_undo
  rw [if_pos h]
  show ({ s with
      undo := if stack_max < (s.undo ++ [s.points]).length then
          (s.undo ++ [s.points]).drop 1 else s.undo ++ [s.points],
      redo := [] } : EditorState M) = _
  rcases lt_or_eq_of_le hcap with hlt | heq
  · have h30 : ¬ stack_max < (s.undo ++ [s.points]).length := by
      simp only [List.length_append, List.length_singleton]; omega
    have hdrop : (s.undo.length + 1) - stack_max = 0 := by omega
    rw [if_neg h30, hdrop, List.drop_zero]
  · have h30 : stack_max < (s.undo ++ [s.points]).length := by
      simp only [List.length_append, List.length_singleton]; omega
    have hdrop : (s.undo.length + 1) - stack_max = 1 := by omega
    rw [if_pos h30, hdrop]

lemma snaps_length (fs : List (Buf → Buf)) : ∀ p, (snaps fs p).length = fs.length := by
  induction fs with
  | nil => intro p; rfl
  | cons f rest ih => intro p; simp [snaps, ih]

lemma chain_cons (f : Buf → Buf) (rest : List (Buf → Buf)) (p : Buf) :
    chain (f :: rest) p = chain rest (f p) := rfl

/-- Characterization of a capacity-respecting edit sequence: the final
buffer is the chained result, the undo stack gains the pre-edit snapshots
oldest-first, and redo is cleared by the first push. -/
lemma run_edits_spec (ops : MeshOps M) (fs : List (Buf → Buf)) :
    ∀ (s : EditorState M), s.mesh.isSome → s.undo.length + fs.length ≤ stack_max →
      (run_edits ops fs s).points = chain fs s.points ∧
      (run_edits ops fs s).undo = s.undo ++ snaps fs s.points ∧
      (run_edits ops fs s).redo = (if fs.isEmpty then s.redo else []) ∧
      (run_edits ops fs s).mesh.isSome := by
  induction fs with
  | nil =>
      intro s hm _
      exact ⟨rfl, by simp [run_edits, snaps], by simp [run_edits], hm⟩
  | cons f rest ih =>
      intro s hm hcap
      obtain ⟨m, hm'⟩ := Option.isSome_iff_exists.mp hm
      have hcap1 : s.undo.length < stack_max := by
        simp only [List.length_cons] at hcap; omega
      set u : EditorState M := { s with undo := s.undo ++ [s.points], redo := [] } with hus
      have hpush : push_undo s = u := by
        rw [push_undo_eq s hm hcap1.le]
        have : (s.undo.length + 1) - stack_max = 0 := by omega
        rw [this, List.drop_zero]
      have humesh : u.mesh = some m := hm'
      have hstep : apply_edit ops f s =
          { u with points := f s.points,
                   mesh := some (ops.compute_normals (ops.with_points m (f s.points))),
                   cached_normals := ops.point_normals
                     (ops.compute_normals (ops.with_points m (f s.points))) } := by
        unfold apply_edit
        rw [hpush, set_points_some ops u m _ humesh]
      set t : EditorState M :=
        { u with points := f s.points,
                 mesh := some (ops.compute_normals (ops.with_points m (f s.points))),
                 cached_normals := ops.point_normals
                     (ops.compute_normals (ops.with_points m (f s.points))) } with hts
      have hfold : run_edits ops (f :: rest) s = run_edits ops rest t := by
        rw [← hstep]; rfl
      have htundo : t.undo = s.undo ++ [s.points] := rfl
      have htredo : t.redo = [] := rfl
      have htpoints : t.points = f s.points := rfl
      have ihres := ih t (by simp [hts, hus]) (by
        rw [htundo]
        simp only [List.length_append, List.length_singleton]
        simp only [List.length_cons] at hcap; omega)
      rw [hfold]
      refine ⟨?_, ?_, ?_, ihres.2.2.2⟩
      · rw [ihres.1, htpoints, chain_cons]
      · rw [ihres.2.1, htundo, htpoints, List.append_assoc]
        rfl
      · rw [ihres.2.2.1, htredo]
        cases rest with
        | nil => simp
        | cons g gs => simp

/-- Characterization of a sequence of bare pushes: the undo stack is the
pushed snapshots with the overflow dropped oldest-first; any push clears
redo; the mesh is untouched. -/
lemma push_seq_spec (bs : List Buf) :
    ∀ (s : EditorState M), s.mesh.isSome → s.undo.length ≤ stack_max →
      (push_seq bs s).undo = (s.undo ++ bs).drop ((s.undo.length + bs.length) - stack_max) ∧
      (push_seq bs s).redo = (if bs.isEmpty then s.redo else []) ∧
      (push_seq bs s).mesh = s.mesh := by
  induction bs with
  | nil =>
      intro s hm hcap
      have h0 : s.undo.length + ([] : List Buf).length - stack_max = 0 := by
        simp only [List.length_nil, Nat.add_zero]; omega
      refine ⟨by rw [h0]; simp [push_seq], by simp [push_seq], rfl⟩
  | cons b rest ih =>
      intro s hm hcap
      have hpush := push_undo_eq ({ s with points := b }) hm hcap
      set t : EditorState M :=
        { s with points := b,
                 undo := (s.undo ++ [b]).drop ((s.undo.length + 1) - stack_max),
                 redo := [] } with hts
      have hfold : push_seq (b :: rest) s = push_seq rest t := by
        show push_seq rest (push_undo { s with points := b }) = push_seq rest t
        rw [hpush]
      have htlen : t.undo.length = (s.undo.length + 1) - ((s.undo.length + 1) - stack_max) := by
        simp [hts]
      have ihres := ih t (by rw [show t.mesh = s.mesh from rfl]; exact hm)
        (by rw [htlen]; omega)
      rw [hfold]
      refine ⟨?_, ?_, by rw [ihres.2.2]⟩
      · rw [ihres.1]
        have hk : (s.undo.length + 1) - stack_max ≤ (s.undo ++ [b]).length := by
          simp only [List.length_append, List.length_singleton]; omega
        have hdrops : t.undo ++ rest = ((s.undo ++ [b]) ++ rest).drop
            ((s.undo.length + 1) - stack_max) := by
          simp only [hts]
          rw [List.drop_append_of_le_length hk]
        rw [hdrops, List.drop_drop]
        have harith : (s.undo.length + 1) - stack_max + (t.undo.length + rest.length - stack_max)
            = (s.undo.length + (rest.length + 1)) - stack_max := by
          rw [htlen]; omega
        rw [harith]
        have hassoc : (s.undo ++ [b]) ++ rest = s.undo ++ (b :: rest) := by
          rw [List.append_assoc]; rfl
        rw [hassoc]
        rfl
      · rw [ihres.2.1]
        cases rest <;> simp [hts]

/-- **C4.** Undo/redo round-trip: for any sequence of `N` buffer-mutating
operations each preceded by `push_undo` (with `N` within the capacity of
30), applying `do_undo` `N` times restores the original pre-sequence
vertex buffer, applying `do_redo` `N` more times restores the final
buffer, and `do_undo` / `do_redo` are silent no-ops when their source
stack is empty. -/
theorem undo_redo_round_trip (ops : MeshOps M) (fs : List (Buf → Buf))
    (s : EditorState M) (hm : s.mesh.isSome) (hu : s.undo = [])
    (hn : fs.length ≤ stack_max) :
    ((do_undo ops)^[fs.length] (run_edits ops fs s)).points = s.points ∧
    ((do_redo ops)^[fs.length] ((do_undo ops)^[fs.length] (run_edits ops fs s))).points
      = (run_edits ops fs s).points ∧
    (∀ s' : EditorState M, s'.undo = [] → do_undo ops s' = s') ∧
    (∀ s' : EditorState M, s'.redo = [] → do_redo ops s' = s') := by
  have hspec := run_edits_spec ops fs s hm (by rw [hu]; simpa using hn)
  refine ⟨?_, ?_, fun s' h => do_undo_of_undo_nil ops s' h,
    fun s' h => do_redo_of_redo_nil ops s' h⟩
  · cases fs with
    | nil => simp [run_edits]
    | cons f rest =>
        have hundo : (run_edits ops (f :: rest) s).undo = snaps (f :: rest) s.points := by
          rw [hspec.2.1, hu]; rfl
        have hcount : (f :: rest).length = (snaps (f :: rest) s.points).length :=
          (snaps_length _ _).symm
        rw [hcount]
        have := do_undo_iter ops (snaps (f :: rest) s.points) (run_edits ops (f :: rest) s)
          [] hspec.2.2.2 (by rw [hundo]; rfl)
        rw [this.1]
        simp [snaps]
  · cases fs with
    | nil => simp [run_edits]
    | cons f rest =>
        have hundo : (run_edits ops (f :: rest) s).undo = snaps (f :: rest) s.points := by
          rw [hspec.2.1, hu]; rfl
        have hredo : (run_edits ops (f :: rest) s).redo = [] := by
          rw [hspec.2.2.1]; rfl
        have hcount : (f :: rest).length = (snaps (f :: rest) s.points).length :=
          (snaps_length _ _).symm
        rw [hcount]
        have hund := do_undo_iter ops (snaps (f :: rest) s.points)
          (run_edits ops (f :: rest) s) [] hspec.2.2.2 (by rw [hundo]; rfl)
        set t2 := (do_undo ops)^[(snaps (f :: rest) s.points).length]
          (run_edits ops (f :: rest) s) with ht2
        have hr2 : t2.redo =
            rollback_trace (snaps (f :: rest) s.points)
              (run_edits ops (f :: rest) s).points := by
          rw [hund.2.2.1, hredo]; rfl
        have hlen2 : (snaps (f :: rest) s.points).length =
            (rollback_trace (snaps (f :: rest) s.points)
              (run_edits ops (f :: rest) s).points).length :=
          (rollback_trace_length _ _).symm
        rw [hlen2]
        have hred := do_redo_iter ops
          (rollback_trace (snaps (f :: rest) s.points) (run_edits ops (f :: rest) s).points)
          t2 [] hund.2.2.2 (by rw [hr2]; rfl)
        rw [hred.1]
        simp only [snaps, rollback_trace, List.headD_cons]

/-- Closed witness for `undo_redo_round_trip`: one edit on the demo
state. -/
theorem undo_redo_round_trip_witness :
    (demoState.mesh.isSome ∧ demoState.undo = [] ∧
      ([fun _ => [(⟨5, 5, 5⟩ : Vec3)]] : List (Buf → Buf)).length ≤ stack_max) ∧
    (((do_undo demoOps)^[1] (run_edits demoOps [fun _ => [⟨5, 5, 5⟩]] demoState)).points
        = demoState.points ∧
      ((do_redo demoOps)^[1]
          ((do_undo demoOps)^[1] (run_edits demoOps [fun _ => [⟨5, 5, 5⟩]] demoState))).points
        = (run_edits demoOps [fun _ => [⟨5, 5, 5⟩]] demoState).points ∧
      (∀ s' : EditorState Unit, s'.undo = [] → do_undo demoOps s' = s') ∧
      (∀ s' : EditorState Unit, s'.redo = [] → do_redo demoOps s' = s')) :=
  ⟨⟨rfl, rfl, by norm_num [stack_max]⟩,
    undo_redo_round_trip demoOps [fun _ => [⟨5, 5, 5⟩]] demoState rfl rfl
      (by norm_num [stack_max])⟩

/-- **C9.** The undo stack is bounded at capacity 30 with oldest-first
eviction: after `capacity + 5` pushes the stack holds exactly 30 entries,
the oldest surviving entry is the 6th pushed, and every push clears the
redo stack. -/
theorem history_bound (bs : List Buf) (s : EditorState M)
    (hm : s.mesh.isSome) (hu : s.undo = []) (hlen : bs.length = stack_max + 5) :
    (push_seq bs s).undo = bs.drop 5 ∧
    (push_seq bs s).undo.length = stack_max ∧
    (push_seq bs s).undo.head? = bs[5]? ∧
    (push_seq bs s).redo = [] ∧
    (∀ t : EditorState M, t.mesh.isSome → (push_undo t).redo = []) := by
  have hspec := push_seq_spec bs s hm (by rw [hu]; simp [stack_max])
  have hne : ¬ bs.isEmpty := by
    cases bs with
    | nil => simp [stack_max] at hlen
    | cons b rest => simp
  have hdrop : (push_seq bs s).undo = bs.drop 5 := by
    rw [hspec.1, hu, hlen]
    norm_num [stack_max]
  refine ⟨hdrop, ?_, ?_, ?_, ?_⟩
  · rw [hdrop, List.length_drop, hlen]
    omega
  · rw [hdrop, head?_drop']
  · rw [hspec.2.1, if_neg (by simpa using hne)]
  · intro t ht
    unfold push_undo
    rw [if_pos ht]

/-- Closed witness for `history_bound`: 35 distinct single-point buffers
pushed onto the demo state. -/
theorem history_bound_witness :
    (demoState.mesh.isSome ∧ demoState.undo = [] ∧
      ((List.range 35).map fun n => ([⟨(n : ℝ), 0, 0⟩] : Buf)).length = stack_max + 5) ∧
    ((push_seq ((List.range 35).map fun n => ([⟨(n : ℝ), 0, 0⟩] : Buf)) demoState).undo
        = ((List.range 35).map fun n => ([⟨(n : ℝ), 0, 0⟩] : Buf)).drop 5 ∧
      (push_seq ((List.range 35).map fun n => ([⟨(n : ℝ), 0, 0⟩] : Buf)) demoState).undo.length
        = stack_max ∧
      (push_seq ((List.range 35).map fun n => ([⟨(n : ℝ), 0, 0⟩] : Buf)) demoState).undo.head?
        = ((List.range 35).map fun n => ([⟨(n : ℝ), 0, 0⟩] : Buf))[5]? ∧
      (push_seq ((List.range 35).map fun n => ([⟨(n : ℝ), 0, 0⟩] : Buf)) demoState).redo = [] ∧
      (∀ t : EditorState Unit, t.mesh.isSome → (push_undo t).redo = [])) :=
  ⟨⟨rfl, rfl, by simp only [List.length_map, List.length_range]; decide⟩,
    history_bound ((List.range 35).map fun n => ([⟨(n : ℝ), 0, 0⟩] : Buf)) demoState rfl rfl
      (by simp only [List.length_map, List.length_range]; decide)⟩

/-! ## Topology-operation failure rollback (C1) and decimation (C2) -/

/-- **C1 (amended).** If `push_undo` is called and then both subdivision
attempts raise, the rollback via `do_undo` restores the vertex buffer to
its pre-call value and (the undo stack being below capacity) the undo
stack to its pre-call contents; but the redo stack is not empty
afterwards: the rollback pushes the current — still pre-call — buffer
onto redo, so redo holds exactly that one snapshot, and a subsequent redo
would merely reinstall the same buffer. -/
theorem subdivide_failure_rollback (ops : MeshOps M) (it : ℕ) (s : EditorState M) (m : M)
    (hm : s.mesh = some m)
    (hfail1 : ops.subdivide_loop m it = none)
    (hfail2 : ops.subdivide_plain m it = none)
    (hcap : s.undo.length < stack_max) :
    (subdivide_mesh ops it s).points = s.points ∧
    (subdivide_mesh ops it s).undo = s.undo ∧
    (subdivide_mesh ops it s).redo = [s.points] := by
  have hsome : s.mesh.isSome := by rw [hm]; rfl
  set s1 : EditorState M := { s with undo := s.undo ++ [s.points], redo := [] } with hs1
  have hpush : push_undo s = s1 := by
    rw [push_undo_eq s hsome hcap.le]
    have : (s.undo.length + 1) - stack_max = 0 := by omega
    rw [this, List.drop_zero]
  have hs1mesh : s1.mesh = some m := hm
  have hs1undo : s1.undo = s.undo ++ [s.points] := rfl
  have hroll : do_undo ops s1 =
      set_points ops { s1 with redo := s1.redo ++ [s1.points], undo := s.undo } s.points :=
    do_undo_eq_pop ops s1 m s.undo s.points hs1mesh hs1undo
  have hsub : subdivide_mesh ops it s = do_undo ops s1 := by
    unfold subdivide_mesh
    rw [hm]
    dsimp only
    rw [hfail1, hfail2, hpush]
  rw [hsub, hroll,
    set_points_some ops { s1 with redo := s1.redo ++ [s1.points], undo := s.undo } m
      s.points hs1mesh]
  exact ⟨rfl, rfl, rfl⟩

/-- Closed witness for `subdivide_failure_rollback` on the demo state,
where both subdivision oracles raise. -/
theorem subdivide_failure_rollback_witness :
    (demoState.mesh = some () ∧ demoOps.subdivide_loop () 2 = none ∧
      demoOps.subdivide_plain () 2 = none ∧ demoState.undo.length < stack_max) ∧
    ((subdivide_mesh demoOps 2 demoState).points = demoState.points ∧
      (subdivide_mesh demoOps 2 demoState).undo = demoState.undo ∧
      (subdivide_mesh demoOps 2 demoState).redo = [demoState.points]) :=
  ⟨⟨rfl, rfl, rfl, by norm_num [demoState, stack_max]⟩,
    subdivide_failure_rollback demoOps 2 demoState () rfl rfl rfl
      (by norm_num [demoState, stack_max])⟩

/-- The claim as stated is false: after the failed subdivision the redo
stack is not empty (the rollback's `do_undo` pushed the pre-call buffer
onto it). -/
theorem subdivide_failure_redo_counterexample :
    (subdivide_mesh demoOps 2 demoState).redo ≠ [] :=
  List.cons_ne_nil _ _

/-- **C2 (amended).** When `decimate_pro` succeeds and — per the
decimation library's contract for a 0.5 reduction — the cleaned result
has fewer vertices than the 1000-vertex input, the buffer after
`decimate_mesh` has fewer than 1000 vertices; but the Normal Cache is not
empty immediately after the operation: `_post_mesh_op_fixup` eagerly
recomputes the new mesh's normals and stores them in the cache. -/
theorem decimate_success_count_and_cache (ops : MeshOps M) (pct : ℕ) (s : EditorState M)
    (m m' : M) (hm : s.mesh = some m)
    (hdec : ops.decimate_pro m ((pct : ℝ) / 100.0) = some m')
    (hcount : (ops.points_of (ops.compute_normals (ops.extract_clean m'))).length
        < s.points.length)
    (hlen : s.points.length = 1000) :
    (decimate_mesh ops pct s).points.length < 1000 ∧
    (decimate_mesh ops pct s).cached_normals
      = ops.point_normals (ops.compute_normals (ops.extract_clean m')) := by
  have hstep : decimate_mesh ops pct s =
      post_mesh_op_fixup ops { push_undo s with mesh := some m' } := by
    unfold decimate_mesh
    rw [hm]
    dsimp only
    rw [hdec]
  have hfix : post_mesh_op_fixup ops { push_undo s with mesh := some m' } =
      { push_undo s with
          mesh := some (ops.compute_normals (ops.extract_clean m')),
          points := ops.points_of (ops.compute_normals (ops.extract_clean m')),
          cached_normals :=
            ops.point_normals (ops.compute_normals (ops.extract_clean m')) } := by
    unfold post_mesh_op_fixup
    rfl
  rw [hstep, hfix]
  exact ⟨by rw [← hlen]; exact hcount, rfl⟩

/-- Closed witness for `decimate_success_count_and_cache`: the demo
oracle's decimation succeeds and returns the empty cleaned buffer; the
input buffer is padded to 1000 vertices. -/
theorem decimate_success_witness :
    (({ demoState with points := List.replicate 1000 ⟨0, 0, 0⟩ } :
        EditorState Unit).mesh = some () ∧
      demoOps.decimate_pro () ((50 : ℕ) / 100.0 : ℝ) = some () ∧
      (demoOps.points_of (demoOps.compute_normals (demoOps.extract_clean ()))).length
        < ({ demoState with points := List.replicate 1000 ⟨0, 0, 0⟩ } :
            EditorState Unit).points.length ∧
      ({ demoState with points := List.replicate 1000 ⟨0, 0, 0⟩ } :
        EditorState Unit).points.length = 1000) ∧
    ((decimate_mesh demoOps 50
        { demoState with points := List.replicate 1000 ⟨0, 0, 0⟩ }).points.length < 1000 ∧
      (decimate_mesh demoOps 50
        { demoState with points := List.replicate 1000 ⟨0, 0, 0⟩ }).cached_normals
        = demoOps.point_normals (demoOps.compute_normals (demoOps.extract_clean ()))) :=
  ⟨⟨rfl, rfl, by simp only [demoOps, List.length_replicate, List.length_nil]; norm_num,
      by simp only [List.length_replicate]⟩,
    decimate_success_count_and_cache demoOps 50
      { demoState with points := List.replicate 1000 ⟨0, 0, 0⟩ } () () rfl rfl
      (by simp only [demoOps, List.length_replicate, List.length_nil]; norm_num)
      (by simp only [List.length_replicate])⟩

/-- The claim as stated is false: immediately after a successful
decimation the Normal Cache is not empty — it holds the freshly computed
normals of the new mesh. -/
theorem decimate_cache_not_empty_counterexample :
    (decimate_mesh demoOps 50 demoState).cached_normals ≠ none :=
  Option.some_ne_none _

/-! ## Sculpt-tick reduction lemmas -/

lemma set_points_points (ops : MeshOps M) (s : EditorState M) (pts : Buf) :
    (set_points ops s pts).points = pts := by
  unfold set_points
  cases s.mesh <;> rfl

lemma set_points_normalsLast (ops : MeshOps M) (s : EditorState M) (pts : Buf) :
    (set_points ops s pts).normalsLast = s.normalsLast := by
  unfold set_points
  cases s.mesh <;> rfl

/-- Reduction of an accepted axis-constrained Grab tick. -/
lemma sculpt_step_tartu_axis_eq (ops : MeshOps M) (tick : TickIn) (s : EditorState M)
    (m : M) (a p lp ax : Vec3)
    (hm : s.mesh = some m) (ha : s.anchor = some a)
    (hrate : ¬ tick.now - s.sculptLast < sculpt_min_dt_ms)
    (hpick : tick.pick = some p) (hlast : s.last_pick = some lp)
    (hnoise : ¬ (clamp_vec (p.sub lp) s.max_step_world).norm3 < 1e-10)
    (hbrush : s.brush = Brush.TARTU) (hax : s.axis = some ax) :
    sculpt_step ops tick s =
      set_points ops
        { s with sculptLast := tick.now, last_pick := some p,
                 axis_total_signed := s.axis_total_signed + axis_signed_step s p lp ax,
                 sculpt_total := s.sculpt_total + |axis_signed_step s p lp ax| }
        (grab_deform s.points a (Vec3.smul (axis_signed_step s p lp ax) ax) s.radius
          (npClip s.strength 0.0 2.5)) := by
  unfold sculpt_step
  rw [hm, ha]
  dsimp only
  rw [if_neg hrate, hpick]
  dsimp only
  rw [hlast]
  dsimp only
  rw [if_neg hnoise, hbrush, hax]
  dsimp only
  rw [← hm, ← ha, ← hbrush, ← hax]
  rfl

/-- Reduction of an accepted free (unconstrained) Grab tick. -/
lemma sculpt_step_tartu_free_eq (ops : MeshOps M) (tick : TickIn) (s : EditorState M)
    (m : M) (a p lp : Vec3)
    (hm : s.mesh = some m) (ha : s.anchor = some a)
    (hrate : ¬ tick.now - s.sculptLast < sculpt_min_dt_ms)
    (hpick : tick.pick = some p) (hlast : s.last_pick = some lp)
    (hnoise : ¬ (clamp_vec (p.sub lp) s.max_step_world).norm3 < 1e-10)
    (hbrush : s.brush = Brush.TARTU) (hax : s.axis = none) :
    sculpt_step ops tick s =
      set_points ops
        { s with sculptLast := tick.now, last_pick := some p,
                 sculpt_total := s.sculpt_total +
                   (clamp_vec (clamp_vec (p.sub lp) s.max_step_world) (max_grab s)).norm3 }
        (grab_deform s.points a
          (clamp_vec (clamp_vec (p.sub lp) s.max_step_world) (max_grab s)) s.radius
          (npClip s.strength 0.0 2.5)) := by
  unfold sculpt_step
  rw [hm, ha]
  dsimp only
  rw [if_neg hrate, hpick]
  dsimp only
  rw [hlast]
  dsimp only
  rw [if_neg hnoise, hbrush, hax]
  dsimp only
  rw [← hm, ← ha, ← hbrush, ← hax]
  rfl

/-! ## Clamp and displacement bounds (C7, C8) -/

lemma npClip_le_hi (v lo hi : ℝ) : npClip v lo hi ≤ hi := min_le_right _ _

lemma npClip_lo_le (v lo hi : ℝ) (h : lo ≤ hi) : lo ≤ npClip v lo hi :=
  le_min (le_max_right _ _) h

lemma abs_npClip_le (v c : ℝ) (hc : 0 ≤ c) : |npClip v (-c) c| ≤ c :=
  abs_le.mpr ⟨npClip_lo_le v (-c) c (by linarith), npClip_le_hi v (-c) c⟩

lemma clamp_vec_norm_le (v : Vec3) (L : ℝ) (hL : 1e-12 ≤ L) :
    (clamp_vec v L).norm3 ≤ L := by
  unfold clamp_vec
  dsimp only
  split
  · rename_i h
    rcases h with h | h
    · exact h
    · have := Vec3.norm3_nonneg v
      linarith
  · rename_i h
    push_neg at h
    have hpos : 0 < v.norm3 := lt_of_lt_of_le (by norm_num) h.2
    rw [Vec3.norm3_smul, abs_of_nonneg (div_nonneg (by linarith) hpos.le),
      div_mul_cancel₀ _ hpos.ne']

lemma grab_deform_length (points : Buf) (a δ : Vec3) (radius strength : ℝ) :
    (grab_deform points a δ radius strength).length = points.length :=
  List.length_map _ _

lemma grab_deform_disp (points : Buf) (a δ : Vec3) (radius strength : ℝ) (i : ℕ)
    (hi : i < points.length) :
    ((grab_deform points a δ radius strength).getD i Vec3.zero).sub
        (points.getD i Vec3.zero)
      = Vec3.smul
          (gaussian_falloff ((points.getD i Vec3.zero).sub a).norm3 radius * strength) δ := by
  rw [List.getD_eq_getElem _ _ (by rw [grab_deform_length]; exact hi),
      List.getD_eq_getElem _ _ hi]
  simp only [grab_deform, List.getElem_map]
  exact Vec3.add_sub_cancel3 _ _

/-- **C7.** On every accepted Grab sculpt tick (axis-constrained or
free), and for every vertex, the displacement applied to that vertex has
Euclidean norm at most the clamped strength (itself at most 2.5) times
`min(maxStep, max(0.25, 0.15 * radius))`, where
`maxStep = max(0.25, 0.004 * bounding diagonal)`, regardless of how large
the raw input delta is. -/
theorem grab_tick_displacement_bounded (ops : MeshOps M) (tick : TickIn)
    (s : EditorState M) (m : M) (a p lp : Vec3) (L : ℝ)
    (hm : s.mesh = some m) (ha : s.anchor = some a)
    (hrate : ¬ tick.now - s.sculptLast < sculpt_min_dt_ms)
    (hpick : tick.pick = some p) (hlast : s.last_pick = some lp)
    (hnoise : ¬ (clamp_vec (p.sub lp) s.max_step_world).norm3 < 1e-10)
    (hbrush : s.brush = Brush.TARTU)
    (hms : s.max_step_world = max 0.25 (0.004 * L))
    (hax_unit : ∀ ax, s.axis = some ax → ∃ mo, safe_unit_axis mo = some ax) :
    ∀ i, i < s.points.length →
      (((sculpt_step ops tick s).points.getD i Vec3.zero).sub
          (s.points.getD i Vec3.zero)).norm3
        ≤ npClip s.strength 0.0 2.5 * min s.max_step_world (max 0.25 (0.15 * s.radius)) ∧
      npClip s.strength 0.0 2.5 ≤ 2.5 := by
  intro i hi
  have heff0 : (0:ℝ) ≤ npClip s.strength 0.0 2.5 := by
    have h := npClip_lo_le s.strength 0.0 2.5 (by norm_num)
    calc (0:ℝ) ≤ 0.0 := by norm_num
    _ ≤ npClip s.strength 0.0 2.5 := h
  have heff25 : npClip s.strength 0.0 2.5 ≤ 2.5 := npClip_le_hi _ _ _
  have hmg_25 : (0.25 : ℝ) ≤ max_grab s := by
    unfold max_grab
    rw [hms]
    exact le_min (le_max_left _ _) (le_max_left _ _)
  have hmg0 : (0:ℝ) ≤ max_grab s := le_trans (by norm_num) hmg_25
  refine ⟨?_, heff25⟩
  rcases haxv : s.axis with _ | ax
  · rw [sculpt_step_tartu_free_eq ops tick s m a p lp hm ha hrate hpick hlast hnoise
        hbrush haxv, set_points_points, grab_deform_disp _ _ _ _ _ i hi, Vec3.norm3_smul]
    have hg0 : 0 ≤ gaussian_falloff ((s.points.getD i Vec3.zero).sub a).norm3 s.radius :=
      gaussian_falloff_nonneg _ _
    have hg1 : gaussian_falloff ((s.points.getD i Vec3.zero).sub a).norm3 s.radius ≤ 1 :=
      gaussian_falloff_le_one _ _
    have hd : (clamp_vec (clamp_vec (p.sub lp) s.max_step_world) (max_grab s)).norm3
        ≤ max_grab s :=
      clamp_vec_norm_le _ _ (le_trans (by norm_num) hmg_25)
    rw [abs_of_nonneg (mul_nonneg hg0 heff0)]
    calc gaussian_falloff ((s.points.getD i Vec3.zero).sub a).norm3 s.radius *
          npClip s.strength 0.0 2.5 *
          (clamp_vec (clamp_vec (p.sub lp) s.max_step_world) (max_grab s)).norm3
        ≤ npClip s.strength 0.0 2.5 * max_grab s := by
          apply mul_le_mul _ hd (Vec3.norm3_nonneg _) heff0
          nlinarith
    _ = npClip s.strength 0.0 2.5 * min s.max_step_world (max 0.25 (0.15 * s.radius)) := rfl
  · obtain ⟨mo, hmo⟩ := hax_unit ax haxv
    have haxnorm : ax.norm3 = 1 := by
      cases mo with
      | VAPAA => simp [safe_unit_axis] at hmo
      | X =>
          simp only [safe_unit_axis, Option.some.injEq] at hmo
          rw [← hmo, norm3_simple,
            show (1.0:ℝ)^2 + (0.0:ℝ)^2 + (0.0:ℝ)^2 = 1 by norm_num, Real.sqrt_one]
      | Y =>
          simp only [safe_unit_axis, Option.some.injEq] at hmo
          rw [← hmo, norm3_simple,
            show (0.0:ℝ)^2 + (1.0:ℝ)^2 + (0.0:ℝ)^2 = 1 by norm_num, Real.sqrt_one]
      | Z =>
          simp only [safe_unit_axis, Option.some.injEq] at hmo
          rw [← hmo, norm3_simple,
            show (0.0:ℝ)^2 + (0.0:ℝ)^2 + (1.0:ℝ)^2 = 1 by norm_num, Real.sqrt_one]
    rw [sculpt_step_tartu_axis_eq ops tick s m a p lp ax hm ha hrate hpick hlast hnoise
        hbrush haxv, set_points_points, grab_deform_disp _ _ _ _ _ i hi, Vec3.smul_assoc3,
      Vec3.norm3_smul, haxnorm, mul_one]
    have hg0 : 0 ≤ gaussian_falloff ((s.points.getD i Vec3.zero).sub a).norm3 s.radius :=
      gaussian_falloff_nonneg _ _
    have hg1 : gaussian_falloff ((s.points.getD i Vec3.zero).sub a).norm3 s.radius ≤ 1 :=
      gaussian_falloff_le_one _ _
    have hstep : |axis_signed_step s p lp ax| ≤ max_grab s := abs_npClip_le _ _ hmg0
    calc |gaussian_falloff ((s.points.getD i Vec3.zero).sub a).norm3 s.radius *
          npClip s.strength 0.0 2.5 * axis_signed_step s p lp ax|
        = gaussian_falloff ((s.points.getD i Vec3.zero).sub a).norm3 s.radius *
          npClip s.strength 0.0 2.5 * |axis_signed_step s p lp ax| := by
          rw [abs_mul, abs_of_nonneg (mul_nonneg hg0 heff0)]
    _ ≤ npClip s.strength 0.0 2.5 * max_grab s := by
          apply mul_le_mul _ hstep (abs_nonneg _) heff0
          nlinarith
    _ = npClip s.strength 0.0 2.5 * min s.max_step_world (max 0.25 (0.15 * s.radius)) := rfl

/-- **C8.** Axis-constrained Grab moves vertices only along the active
axis: on every accepted tick with brush Grab and an active axis, each
vertex's displacement is a scalar multiple of the axis vector, so its
component along any direction perpendicular to the axis is exactly
zero. -/
theorem axis_grab_perpendicular_zero (ops : MeshOps M) (tick : TickIn)
    (s : EditorState M) (m : M) (a p lp ax : Vec3)
    (hm : s.mesh = some m) (ha : s.anchor = some a)
    (hrate : ¬ tick.now - s.sculptLast < sculpt_min_dt_ms)
    (hpick : tick.pick = some p) (hlast : s.last_pick = some lp)
    (hnoise : ¬ (clamp_vec (p.sub lp) s.max_step_world).norm3 < 1e-10)
    (hbrush : s.brush = Brush.TARTU) (hax : s.axis = some ax) :
    ∀ i, i < s.points.length →
      ∃ c : ℝ,
        ((sculpt_step ops tick s).points.getD i Vec3.zero).sub (s.points.getD i Vec3.zero)
          = Vec3.smul c ax ∧
        ∀ u : Vec3, ax.dot u = 0 →
          (((sculpt_step ops tick s).points.getD i Vec3.zero).sub
            (s.points.getD i Vec3.zero)).dot u = 0 := by
  intro i hi
  rw [sculpt_step_tartu_axis_eq ops tick s m a p lp ax hm ha hrate hpick hlast hnoise
      hbrush hax, set_points_points, grab_deform_disp _ _ _ _ _ i hi, Vec3.smul_assoc3]
  refine ⟨_, rfl, ?_⟩
  intro u hu
  rw [Vec3.smul_dot, hu, mul_zero]

/-! ## Concrete tick evaluation helpers -/

lemma sub_zero_z : (⟨0.0, 0.0, 1.0⟩ : Vec3).sub ⟨0.0, 0.0, 0.0⟩ = ⟨0.0, 0.0, 1.0⟩ := by
  ext <;> norm_num [Vec3.sub]

lemma norm3_z : (⟨0.0, 0.0, 1.0⟩ : Vec3).norm3 = 1 := by
  rw [norm3_simple, show (0.0:ℝ)^2 + (0.0:ℝ)^2 + (1.0:ℝ)^2 = 1 by norm_num, Real.sqrt_one]

lemma clamp_vec_z :
    clamp_vec ((⟨0.0, 0.0, 1.0⟩ : Vec3).sub ⟨0.0, 0.0, 0.0⟩) 2.0 = ⟨0.0, 0.0, 1.0⟩ := by
  rw [sub_zero_z]
  unfold clamp_vec
  dsimp only
  rw [norm3_z, if_pos (Or.inl (by norm_num))]

lemma noise_z :
    ¬ (clamp_vec ((⟨0.0, 0.0, 1.0⟩ : Vec3).sub ⟨0.0, 0.0, 0.0⟩) 2.0).norm3 < 1e-10 := by
  rw [clamp_vec_z, norm3_z]
  norm_num

/-- Closed witness for `grab_tick_displacement_bounded`: an accepted free
Grab tick on the demo state. -/
theorem grab_tick_displacement_bounded_witness :
    (demoDrag.mesh = some () ∧ demoDrag.anchor = some ⟨0.0, 0.0, 0.0⟩ ∧
      ¬ demoTick.now - demoDrag.sculptLast < sculpt_min_dt_ms ∧
      demoTick.pick = some ⟨0.0, 0.0, 1.0⟩ ∧
      demoDrag.last_pick = some ⟨0.0, 0.0, 0.0⟩ ∧
      ¬ (clamp_vec ((⟨0.0, 0.0, 1.0⟩ : Vec3).sub ⟨0.0, 0.0, 0.0⟩)
          demoDrag.max_step_world).norm3 < 1e-10 ∧
      demoDrag.brush = Brush.TARTU ∧
      demoDrag.max_step_world = max 0.25 (0.004 * 500)) ∧
    (∀ i, i < demoDrag.points.length →
      (((sculpt_step demoOps demoTick demoDrag).points.getD i Vec3.zero).sub
          (demoDrag.points.getD i Vec3.zero)).norm3
        ≤ npClip demoDrag.strength 0.0 2.5 *
            min demoDrag.max_step_world (max 0.25 (0.15 * demoDrag.radius)) ∧
      npClip demoDrag.strength 0.0 2.5 ≤ 2.5) :=
  ⟨⟨rfl, rfl, by decide, rfl, rfl, noise_z, rfl,
      by
        show (2.0 : ℝ) = max 0.25 (0.004 * 500)
        rw [max_eq_right (by norm_num : (0.25:ℝ) ≤ 0.004 * 500)]
        norm_num⟩,
    grab_tick_displacement_bounded demoOps demoTick demoDrag () ⟨0.0, 0.0, 0.0⟩
      ⟨0.0, 0.0, 1.0⟩ ⟨0.0, 0.0, 0.0⟩ 500 rfl rfl (by decide) rfl rfl noise_z rfl
      (by
        show (2.0 : ℝ) = max 0.25 (0.004 * 500)
        rw [max_eq_right (by norm_num : (0.25:ℝ) ≤ 0.004 * 500)]
        norm_num)
      (fun ax h => Option.noConfusion h)⟩

/-- Closed witness for `axis_grab_perpendicular_zero`: an accepted
Z-axis-constrained Grab tick on the demo state. -/
theorem axis_grab_perpendicular_zero_witness :
    (demoDragZ.mesh = some () ∧ demoDragZ.anchor = some ⟨0.0, 0.0, 0.0⟩ ∧
      ¬ demoTick.now - demoDragZ.sculptLast < sculpt_min_dt_ms ∧
      demoTick.pick = some ⟨0.0, 0.0, 1.0⟩ ∧
      demoDragZ.last_pick = some ⟨0.0, 0.0, 0.0⟩ ∧
      ¬ (clamp_vec ((⟨0.0, 0.0, 1.0⟩ : Vec3).sub ⟨0.0, 0.0, 0.0⟩)
          demoDragZ.max_step_world).norm3 < 1e-10 ∧
      demoDragZ.brush = Brush.TARTU ∧
      demoDragZ.axis = some ⟨0.0, 0.0, 1.0⟩) ∧
    (∀ i, i < demoDragZ.points.length →
      ∃ c : ℝ,
        ((sculpt_step demoOps demoTick demoDragZ).points.getD i Vec3.zero).sub
            (demoDragZ.points.getD i Vec3.zero)
          = Vec3.smul c ⟨0.0, 0.0, 1.0⟩ ∧
        ∀ u : Vec3, Vec3.dot ⟨0.0, 0.0, 1.0⟩ u = 0 →
          (((sculpt_step demoOps demoTick demoDragZ).points.getD i Vec3.zero).sub
            (demoDragZ.points.getD i Vec3.zero)).dot u = 0) :=
  ⟨⟨rfl, rfl, by decide, rfl, rfl, noise_z, rfl, rfl⟩,
    axis_grab_perpendicular_zero demoOps demoTick demoDragZ () ⟨0.0, 0.0, 0.0⟩
      ⟨0.0, 0.0, 1.0⟩ ⟨0.0, 0.0, 0.0⟩ ⟨0.0, 0.0, 1.0⟩ rfl rfl (by decide) rfl rfl
      noise_z rfl rfl⟩

/-! ## Normal-cache behaviour of Grab and Smooth ticks (C5) -/

/-- On an accepted Smooth tick with an empty or stale cache, the
staleness-refresh block runs and restarts the normals timestamp. -/
lemma sculpt_step_silota_refresh_normalsLast (ops : MeshOps M) (tick : TickIn)
    (s : EditorState M) (m : M) (a p lp : Vec3)
    (hm : s.mesh = some m) (ha : s.anchor = some a)
    (hrate : ¬ tick.now - s.sculptLast < sculpt_min_dt_ms)
    (hpick : tick.pick = some p) (hlast : s.last_pick = some lp)
    (hnoise : ¬ (clamp_vec (p.sub lp) s.max_step_world).norm3 < 1e-10)
    (hbrush : s.brush = Brush.SILOTA)
    (hstale : s.cached_normals.isNone ∨ normals_min_dt_ms < tick.now - s.normalsLast) :
    (sculpt_step ops tick s).normalsLast = tick.now := by
  unfold sculpt_step
  rw [hm, ha]
  dsimp only
  rw [if_neg hrate, hpick]
  dsimp only
  rw [hlast]
  dsimp only
  rw [if_neg hnoise, hbrush]
  dsimp only
  rw [if_pos hstale]
  rcases hpn : ops.point_normals (ops.compute_normals m) with _ | ns
  · rfl
  · dsimp only
    rw [set_points_normalsLast]

/-- On an accepted Smooth tick with a populated cache, the resulting
buffer does not depend on the cached normal values: it is the smoothed
buffer, except that when the cache was stale and the recomputation yields
no normals the tick aborts with the buffer unchanged. -/
lemma sculpt_step_silota_points (ops : MeshOps M) (tick : TickIn)
    (s : EditorState M) (m : M) (a p lp : Vec3) (ns : Buf)
    (hm : s.mesh = some m) (ha : s.anchor = some a)
    (hrate : ¬ tick.now - s.sculptLast < sculpt_min_dt_ms)
    (hpick : tick.pick = some p) (hlast : s.last_pick = some lp)
    (hnoise : ¬ (clamp_vec (p.sub lp) s.max_step_world).norm3 < 1e-10)
    (hbrush : s.brush = Brush.SILOTA)
    (hcache : s.cached_normals = some ns) :
    (sculpt_step ops tick s).points =
      if normals_min_dt_ms < tick.now - s.normalsLast then
        (match ops.point_normals (ops.compute_normals m) with
          | none => s.points
          | some _ =>
              local_smooth s.points a s.radius
                (npClip s.strength 0.0 2.5 * max s.smooth_amount 0.05)
                (clamp_vec (p.sub lp) s.max_step_world).norm3)
      else
        local_smooth s.points a s.radius
          (npClip s.strength 0.0 2.5 * max s.smooth_amount 0.05)
          (clamp_vec (p.sub lp) s.max_step_world).norm3 := by
  unfold sculpt_step
  rw [hm, ha]
  dsimp only
  rw [if_neg hrate, hpick]
  dsimp only
  rw [hlast]
  dsimp only
  rw [if_neg hnoise, hbrush]
  dsimp only
  rw [hcache]
  by_cases hstale : normals_min_dt_ms < tick.now - s.normalsLast
  · rw [if_pos (Or.inr hstale), if_pos hstale]
    rcases hpn : ops.point_normals (ops.compute_normals m) with _ | ns'
    · rfl
    · dsimp only
      rw [set_points_points]
  · rw [if_neg (by simpa using hstale), if_neg hstale]
    dsimp only
    rw [set_points_points]

/-- **C5 (amended).** The Normal Cache's values are consulted only by the
normal-dependent brushes: an accepted Grab tick never runs the
staleness-refresh block (the staleness timestamp is unchanged) and its
result buffer does not depend on the cache contents; an accepted Smooth
tick also produces a buffer independent of the cached values, but —
contrary to the claim — it does run the staleness-refresh block before
dispatch: with an empty or stale cache it recomputes the cached normals
and restarts the staleness timestamp.  (Moreover every applied tick,
Grab included, rewrites the cached normals through the `_set_points`
write-back.) -/
theorem normals_cache_grab_smooth_ticks (ops : MeshOps M) (tick : TickIn)
    (s : EditorState M) (m : M) (a p lp : Vec3)
    (hm : s.mesh = some m) (ha : s.anchor = some a)
    (hrate : ¬ tick.now - s.sculptLast < sculpt_min_dt_ms)
    (hpick : tick.pick = some p) (hlast : s.last_pick = some lp)
    (hnoise : ¬ (clamp_vec (p.sub lp) s.max_step_world).norm3 < 1e-10) :
    (s.brush = Brush.TARTU →
      (sculpt_step ops tick s).normalsLast = s.normalsLast ∧
      ∀ cn₁ cn₂ : Option Buf,
        (sculpt_step ops tick { s with cached_normals := cn₁ }).points
          = (sculpt_step ops tick { s with cached_normals := cn₂ }).points) ∧
    (s.brush = Brush.SILOTA →
      ((s.cached_normals.isNone ∨ normals_min_dt_ms < tick.now - s.normalsLast) →
        (sculpt_step ops tick s).normalsLast = tick.now) ∧
      ∀ ns₁ ns₂ : Buf,
        (sculpt_step ops tick { s with cached_normals := some ns₁ }).points
          = (sculpt_step ops tick { s with cached_normals := some ns₂ }).points) := by
  constructor
  · intro hbrush
    constructor
    · rcases haxv : s.axis with _ | ax
      · rw [sculpt_step_tartu_free_eq ops tick s m a p lp hm ha hrate hpick hlast hnoise
            hbrush haxv, set_points_normalsLast]
      · rw [sculpt_step_tartu_axis_eq ops tick s m a p lp ax hm ha hrate hpick hlast
            hnoise hbrush haxv, set_points_normalsLast]
    · intro cn₁ cn₂
      rcases Option.eq_none_or_eq_some s.axis with haxv | ⟨ax, haxv⟩
      · rw [sculpt_step_tartu_free_eq ops tick { s with cached_normals := cn₁ } m a p lp
            hm ha hrate hpick hlast hnoise hbrush haxv,
          sculpt_step_tartu_free_eq ops tick { s with cached_normals := cn₂ } m a p lp
            hm ha hrate hpick hlast hnoise hbrush haxv,
          set_points_points, set_points_points]
        rfl
      · rw [sculpt_step_tartu_axis_eq ops tick { s with cached_normals := cn₁ } m a p lp
            ax hm ha hrate hpick hlast hnoise hbrush haxv,
          sculpt_step_tartu_axis_eq ops tick { s with cached_normals := cn₂ } m a p lp
            ax hm ha hrate hpick hlast hnoise hbrush haxv,
          set_points_points, set_points_points]
        rfl
  · intro hbrush
    refine ⟨fun hstale => sculpt_step_silota_refresh_normalsLast ops tick s m a p lp
      hm ha hrate hpick hlast hnoise hbrush hstale, fun ns₁ ns₂ => ?_⟩
    rw [sculpt_step_silota_points ops tick { s with cached_normals := some ns₁ } m a p lp
        ns₁ hm ha hrate hpick hlast hnoise hbrush rfl,
      sculpt_step_silota_points ops tick { s with cached_normals := some ns₂ } m a p lp
        ns₂ hm ha hrate hpick hlast hnoise hbrush rfl]

/-- Closed witness for `normals_cache_grab_smooth_ticks` on the demo
drag state. -/
theorem normals_cache_grab_smooth_ticks_witness :
    (demoDrag.mesh = some () ∧ demoDrag.anchor = some ⟨0.0, 0.0, 0.0⟩ ∧
      ¬ demoTick.now - demoDrag.sculptLast < sculpt_min_dt_ms ∧
      demoTick.pick = some ⟨0.0, 0.0, 1.0⟩ ∧
      demoDrag.last_pick = some ⟨0.0, 0.0, 0.0⟩ ∧
      ¬ (clamp_vec ((⟨0.0, 0.0, 1.0⟩ : Vec3).sub ⟨0.0, 0.0, 0.0⟩)
          demoDrag.max_step_world).norm3 < 1e-10) ∧
    ((demoDrag.brush = Brush.TARTU →
      (sculpt_step demoOps demoTick demoDrag).normalsLast = demoDrag.normalsLast ∧
      ∀ cn₁ cn₂ : Option Buf,
        (sculpt_step demoOps demoTick { demoDrag with cached_normals := cn₁ }).points
          = (sculpt_step demoOps demoTick { demoDrag with cached_normals := cn₂ }).points) ∧
    (demoDrag.brush = Brush.SILOTA →
      ((demoDrag.cached_normals.isNone ∨
          normals_min_dt_ms < demoTick.now - demoDrag.normalsLast) →
        (sculpt_step demoOps demoTick demoDrag).normalsLast = demoTick.now) ∧
      ∀ ns₁ ns₂ : Buf,
        (sculpt_step demoOps demoTick { demoDrag with cached_normals := some ns₁ }).points
          = (sculpt_step demoOps demoTick
              { demoDrag with cached_normals := some ns₂ }).points)) :=
  ⟨⟨rfl, rfl, by decide, rfl, rfl, noise_z⟩,
    normals_cache_grab_smooth_ticks demoOps demoTick demoDrag () ⟨0.0, 0.0, 0.0⟩
      ⟨0.0, 0.0, 1.0⟩ ⟨0.0, 0.0, 0.0⟩ rfl rfl (by decide) rfl rfl noise_z⟩

/-- The claim as stated is false: an accepted Smooth tick on a state with
an empty cache restarts the staleness timestamp (here from 0 to 100). -/
theorem smooth_tick_touches_cache_counterexample :
    (sculpt_step demoOps demoTick demoDragSmooth).normalsLast
      ≠ demoDragSmooth.normalsLast := by
  rw [sculpt_step_silota_refresh_normalsLast demoOps demoTick demoDragSmooth ()
    ⟨0.0, 0.0, 0.0⟩ ⟨0.0, 0.0, 1.0⟩ ⟨0.0, 0.0, 0.0⟩ rfl rfl (by decide) rfl rfl
    noise_z rfl (Or.inl (by decide))]
  decide

end STLMuokkaus
